import Mathlib

/-
Shallow embedding of the connection-orchestration core of
`src/vdiclient.py` (class VDIClient): host-pool failover authentication
(`authenticate`, lines 204-231), the session directory (`get_vms`,
lines 233-261), and the lifecycle / display-config fragments of
`connect_to_vm` (lines 263-318).

Python strings are modelled as Lean `String`; Python dicts that are
iterated in insertion order are modelled as association lists; network
calls are abstracted as explicit inputs (an outcome per attempt, a
fetch result, a sample stream).
-/

namespace VDI

/-! ### Python string primitives

`str.lower()` and the code-point lexicographic order used by `sorted`
are embedded directly over the character data so that they evaluate by
kernel reduction. -/

/-- Embedding of Python `str.lower()` (ASCII-relevant case folding,
applied character by character). -/
def lower_string (s : String) : String := ⟨s.data.map Char.toLower⟩

/-- Code-point lexicographic `<=` on character lists, as Python compares
strings. -/
def chars_le : List Char → List Char → Bool
  | [], _ => true
  | _ :: _, [] => false
  | a :: as, b :: bs =>
    if a.toNat < b.toNat then true
    else if b.toNat < a.toNat then false
    else chars_le as bs

/-- Python string comparison `a <= b` (case-sensitive, by code point). -/
def str_le (a b : String) : Bool := chars_le a.data b.data

/-! ### HostPool Resolver: `VDIClient.authenticate` (lines 204-231)

The loop body opens a client for the candidate host (assigning
`self.proxmox` — with token auth the constructor makes no network
call, so the assignment always happens), then issues the test request
`cluster.resources.get(type="node")`.  The outcome of that attempt is
abstracted per pool entry: success, `AuthenticationError` (re-raised as
`ConnectionError("Authentication failed: ...")`, stopping the loop), or
a network failure (`ReadTimeout`/`ConnectTimeout`/`ConnectionError`,
`continue`).  Falling off the loop raises
`ConnectionError("Unable to connect to any host in the pool")`.
The pool is shuffled before the loop, so theorems quantify over the
(post-shuffle) attempt order. -/

/-- One `(host, port)` entry of a hostpool. -/
structure HostInfo where
  host : String
  port : Nat
deriving DecidableEq, Repr

/-- Outcome of one connection attempt against one pool entry. -/
inductive AttemptOutcome
  /-- the test request succeeds -/
  | success
  /-- raised `proxmoxer.backends.https.AuthenticationError` -/
  | authError
  /-- a `requests` timeout / connection error is raised -/
  | netError
deriving DecidableEq, Repr

/-- Result of `authenticate`: success, or one of its two distinct
`ConnectionError`s. -/
inductive AuthResult
  /-- success, `return True` -/
  | ok
  /-- error `ConnectionError("Authentication failed: ...")` -/
  | credRejected
  /-- error `ConnectionError("Unable to connect to any host in the pool")` -/
  | poolExhausted
deriving DecidableEq, Repr

/-- The `for hostinfo in ...hostpool` loop of `authenticate`.  Each pool
entry is paired with the outcome its attempt would have.  The state
threaded through is `self.proxmox` (the handle is assigned before the
test request, hence before the outcome is known); the third component
records the hosts on which an attempt was made, in order. -/
def auth_loop : List (HostInfo × AttemptOutcome) → Option HostInfo →
    AuthResult × Option HostInfo × List HostInfo
  | [], px => (.poolExhausted, px, [])
  | (h, o) :: rest, _ =>
    match o with
    | .success => (.ok, some h, [h])
    | .authError => (.credRejected, some h, [h])
    | .netError =>
      let r := auth_loop rest (some h)
      (r.1, r.2.1, h :: r.2.2)

/-- Embedding of `VDIClient.authenticate`, starting from `self.proxmox = None`
(set in `__init__`); the argument is the already-shuffled pool. -/
def authenticate (pool : List (HostInfo × AttemptOutcome)) :
    AuthResult × Option HostInfo × List HostInfo :=
  auth_loop pool none

/-- The value `self.proxmox` holds after a run of attempts: the last
host tried, or the initial value when no attempt was made. -/
def last_px : List (HostInfo × AttemptOutcome) → Option HostInfo → Option HostInfo
  | [], px => px
  | p :: rest, _ => last_px rest (some p.1)

/-! ### Session Directory: `VDIClient.get_vms` (lines 233-261) -/

/-- One record of `cluster.resources.get(type="node")`. -/
structure NodeRec where
  node : String
  status : String
deriving DecidableEq, Repr

/-- One record of `cluster.resources.get(type="vm")`.  `template` is
`none` when the key is absent, `some n` when present with value `n`
(the API reports 0/1). -/
structure VmRec where
  vmid : Nat
  name : String
  node : String
  status : String
  type : String
  template : Option Nat
  lock : Option String
deriving DecidableEq, Repr

/-- The projected dict appended to `vms` (lines 250-257). -/
structure GuestRec where
  vmid : Nat
  name : String
  node : String
  status : String
  type : String
  lock : Option String
deriving DecidableEq, Repr

/-- Lines 237-240: names of nodes whose `status` equals `"online"`. -/
def online_nodes (nodes : List NodeRec) : List String :=
  (nodes.filter (fun n => n.status == "online")).map (fun n => n.node)

/-- Python truthiness of `"template" in vm and vm["template"]`. -/
def template_truthy : Option Nat → Bool
  | none => false
  | some n => n != 0

/-- The three `continue`/append conditions of the VM loop
(lines 245-249). -/
def vm_visible (guest_type : String) (onl : List String) (vm : VmRec) : Bool :=
  onl.contains vm.node && !template_truthy vm.template &&
    (guest_type == "both" || guest_type == vm.type)

/-- The projection built at lines 250-257. -/
def project (vm : VmRec) : GuestRec :=
  { vmid := vm.vmid, name := vm.name, node := vm.node,
    status := vm.status, type := vm.type, lock := vm.lock }

/-- Stable insertion of a guest after all names `<=` its own: the
building block of the stable ascending sort that models Python
`sorted(vms, key=lambda x: x["name"])`. -/
def insert_by_name : List GuestRec → GuestRec → List GuestRec
  | [], x => [x]
  | y :: ys, x =>
    if str_le y.name x.name then y :: insert_by_name ys x
    else x :: y :: ys

/-- Embedding of `sorted(vms, key=lambda x: x["name"])` (line 259): Python `sorted`
is a stable ascending sort by the key, which this left fold of stable
insertions computes. -/
def sort_by_name (l : List GuestRec) : List GuestRec :=
  l.foldl insert_by_name []

/-- Embedding of `VDIClient.get_vms`.  The two `cluster.resources.get` calls are
abstracted as fetch results; any raised exception is caught by the
surrounding `try` and re-raised as `RuntimeError("Failed to get VMs: ...")`. -/
def get_vms (guest_type : String) (node_fetch : Except String (List NodeRec))
    (vm_fetch : Except String (List VmRec)) : Except String (List GuestRec) :=
  match node_fetch with
  | .error e => .error ("Failed to get VMs: " ++ e)
  | .ok nodes =>
    match vm_fetch with
    | .error e => .error ("Failed to get VMs: " ++ e)
    | .ok vmlist =>
      let onl := online_nodes nodes
      .ok (sort_by_name ((vmlist.filter (vm_visible guest_type onl)).map project))

/-! ### Lifecycle fragment of `VDIClient.connect_to_vm` (lines 266-287)

The start command and the 30 status polls are abstracted as a sample
stream: sample `i` tells what the `i`-th iteration of
`for i in range(30)` observes. -/

/-- What one iteration of the polling loop observes. -/
inductive PollSample
  /-- the `tasks(jobid).status.get()` call raises (caught, `continue`) -/
  | queryFail
  /-- the status dict has no `exitstatus` key -/
  | noStatus
  /-- the status dict has `exitstatus` equal to `s` -/
  | completion (s : String)
deriving DecidableEq, Repr

/-- Whether a sample observed a completion (an `exitstatus` key). -/
def is_completion : PollSample → Bool
  | .completion _ => true
  | _ => false

/-- Result of the start-and-wait fragment. -/
inductive StartOutcome
  /-- the guest is running (loop `break` on `exitstatus == "OK"`, or no
  start was needed) -/
  | running
  /-- error `RuntimeError("Failed to start VM")` -/
  | failed
  /-- error `RuntimeError("VM failed to start within 30 seconds")` -/
  | timedOut
deriving DecidableEq, Repr

/-- The `for i in range(30)` polling loop (lines 275-287): each
iteration sleeps, queries the job status (a raise is swallowed and the
iteration is spent), and on an `exitstatus` key either raises (non-OK)
or breaks (OK); the `else` of the loop raises the timeout error.
Returns the outcome and the number of samples consumed. -/
def poll_job : (Nat → PollSample) → Nat → StartOutcome × Nat
  | _, 0 => (.timedOut, 0)
  | sample, n + 1 =>
    match sample 0 with
    | .completion s => if s ≠ "OK" then (.failed, 1) else (.running, 1)
    | _ =>
      let r := poll_job (fun i => sample (i + 1)) n
      (r.1, r.2 + 1)

/-- Lines 266-287: the whole start block is guarded by
`if vm["status"] != "running":`.  Returns the outcome, whether a start
command was issued, and how many status polls were made. -/
def ensure_running (vm_status : String) (sample : Nat → PollSample) :
    StartOutcome × Bool × Nat :=
  if vm_status ≠ "running" then
    ((poll_job sample 30).1, true, (poll_job sample 30).2)
  else (.running, false, 0)

/-! ### Display Config Synthesizer fragment of `connect_to_vm`
(lines 296-318)

`config_parser["virt-viewer"]` is a ConfigParser section: option names
are lower-cased on write and on read (the default `optionxform`), and
assignment replaces the value of an existing option.  It is modelled as
an association list. -/

/-- Assignment `section[key] = value` on a ConfigParser section: the key is
lower-cased; an existing entry is overwritten in place, otherwise the
entry is appended. -/
def set_item (sec : List (String × String)) (k v : String) :
    List (String × String) :=
  let kl := lower_string k
  if sec.any (fun p => p.1 == kl) then
    sec.map (fun p => if p.1 == kl then (p.1, v) else p)
  else sec ++ [(kl, v)]

/-- Reading a key back from a ConfigParser section (key lower-cased). -/
def get_item (sec : List (String × String)) (k : String) : Option String :=
  (sec.find? (fun p => p.1 == lower_string k)).map (fun p => p.2)

/-- Lookup `val in self.spiceproxy_conv` / `self.spiceproxy_conv[val]`:
lookup in the redirect table (a dict, modelled as an association
list). -/
def conv_lookup (conv : List (String × String)) (k : String) : Option String :=
  (conv.find? (fun p => p.1 == k)).map (fun p => p.2)

/-- The body of `for key, value in spiceconfig.items()` (lines 299-307):
the `proxy` key is rewritten through the redirect table using the key
`value[7:].lower()`; every other key is copied verbatim. -/
def ticket_step (conv : List (String × String))
    (sec : List (String × String)) (kv : String × String) :
    List (String × String) :=
  if kv.1 == "proxy" then
    let val := lower_string (kv.2.drop 7)
    match conv_lookup conv val with
    | some repl => set_item sec kv.1 ("http://" ++ repl)
    | none => set_item sec kv.1 kv.2
  else set_item sec kv.1 kv.2

/-- Lines 296-312: build the `virt-viewer` section from the SPICE
ticket, then overlay `self.addl_params` (when configured, `None`
otherwise), each one overwriting any same-named option. -/
def build_config (ticket : List (String × String))
    (conv : List (String × String))
    (addl : Option (List (String × String))) : List (String × String) :=
  let sec := ticket.foldl (ticket_step conv) []
  match addl with
  | none => sec
  | some ps => ps.foldl (fun s kv => set_item s kv.1 kv.2) sec

end VDI

namespace VDI

theorem chars_le_total : ∀ a b : List Char, chars_le a b = true ∨ chars_le b a = true
  | [], _ => Or.inl rfl
  | _ :: _, [] => Or.inr rfl
  | a :: as, b :: bs => by
    simp only [chars_le]
    rcases Nat.lt_trichotomy a.toNat b.toNat with h | h | h
    · left; simp [h]
    · have h1 : ¬ a.toNat < b.toNat := by omega
      have h2 : ¬ b.toNat < a.toNat := by omega
      rcases chars_le_total as bs with h3 | h3
      · left; simp [h1, h2, h3]
      · right; simp [h1, h2, h3]
    · right; simp [h]

theorem chars_le_trans : ∀ a b c : List Char,
    chars_le a b = true → chars_le b c = true → chars_le a c = true
  | [], _, _, _, _ => rfl
  | _ :: _, [], _, h1, _ => by simp [chars_le] at h1
  | _ :: _, _ :: _, [], _, h2 => by simp [chars_le] at h2
  | a :: as, b :: bs, c :: cs, h1, h2 => by
    simp only [chars_le] at h1 h2 ⊢
    rcases Nat.lt_trichotomy a.toNat b.toNat with hab | hab | hab <;>
      rcases Nat.lt_trichotomy b.toNat c.toNat with hbc | hbc | hbc
    all_goals
      first
      | (simp only [if_pos (by omega : a.toNat < c.toNat)])
      | (have hba : b.toNat < a.toNat := by omega
         simp [hba, show ¬ a.toNat < b.toNat by omega] at h1)
      | (have hcb : c.toNat < b.toNat := by omega
         simp [hcb, show ¬ b.toNat < c.toNat by omega] at h2)
      | (simp [show ¬ b.toNat < a.toNat by omega, show ¬ a.toNat < b.toNat by omega] at h1
         simp [show ¬ c.toNat < b.toNat by omega, show ¬ b.toNat < c.toNat by omega] at h2
         simp [show ¬ a.toNat < c.toNat by omega, show ¬ c.toNat < a.toNat by omega]
         exact chars_le_trans as bs cs h1 h2)

theorem str_le_total (a b : String) : str_le a b = true ∨ str_le b a = true :=
  chars_le_total a.data b.data

theorem str_le_trans {a b c : String} (h1 : str_le a b = true) (h2 : str_le b c = true) :
    str_le a c = true :=
  chars_le_trans a.data b.data c.data h1 h2

end VDI

namespace VDI

theorem mem_insert_by_name (x a : GuestRec) :
    ∀ l : List GuestRec, a ∈ insert_by_name l x ↔ a = x ∨ a ∈ l
  | [] => by simp [insert_by_name]
  | y :: ys => by
    simp only [insert_by_name]
    split
    · rw [List.mem_cons, mem_insert_by_name x a ys, List.mem_cons]
      tauto
    · rw [List.mem_cons, List.mem_cons]

theorem insert_by_name_sorted (x : GuestRec) :
    ∀ l : List GuestRec, List.Pairwise (fun a b => str_le a.name b.name = true) l →
      List.Pairwise (fun a b => str_le a.name b.name = true) (insert_by_name l x)
  | [], _ => by simp [insert_by_name]
  | y :: ys, h => by
    rw [List.pairwise_cons] at h
    simp only [insert_by_name]
    split
    · rename_i hle
      rw [List.pairwise_cons]
      constructor
      · intro z hz
        rcases (mem_insert_by_name x z ys).mp hz with rfl | hz
        · exact hle
        · exact h.1 z hz
      · exact insert_by_name_sorted x ys h.2
    · rename_i hnle
      have hxy : str_le x.name y.name = true := by
        rcases str_le_total y.name x.name with h1 | h1
        · exact absurd h1 hnle
        · exact h1
      rw [List.pairwise_cons]
      constructor
      · intro z hz
        rcases List.mem_cons.mp hz with rfl | hz
        · exact hxy
        · exact str_le_trans hxy (h.1 z hz)
      · rw [List.pairwise_cons]
        exact h

theorem sort_fold_mem (a : GuestRec) :
    ∀ (l acc : List GuestRec), a ∈ l.foldl insert_by_name acc ↔ a ∈ acc ∨ a ∈ l
  | [], acc => by simp
  | x :: xs, acc => by
    simp only [List.foldl_cons]
    rw [sort_fold_mem a xs (insert_by_name acc x), mem_insert_by_name]
    simp
    tauto

theorem mem_sort_by_name (a : GuestRec) (l : List GuestRec) :
    a ∈ sort_by_name l ↔ a ∈ l := by
  rw [sort_by_name, sort_fold_mem]
  simp

theorem sort_fold_sorted :
    ∀ (l acc : List GuestRec),
      List.Pairwise (fun a b => str_le a.name b.name = true) acc →
      List.Pairwise (fun a b => str_le a.name b.name = true) (l.foldl insert_by_name acc)
  | [], _, h => h
  | x :: xs, acc, h => by
    simp only [List.foldl_cons]
    exact sort_fold_sorted xs _ (insert_by_name_sorted x acc h)

theorem sort_by_name_sorted (l : List GuestRec) :
    List.Pairwise (fun a b => str_le a.name b.name = true) (sort_by_name l) :=
  sort_fold_sorted l [] (by simp)

end VDI

namespace VDI

theorem auth_loop_net_skip :
    ∀ (pre rest : List (HostInfo × AttemptOutcome)) (px : Option HostInfo),
      (∀ p ∈ pre, p.2 = AttemptOutcome.netError) →
      auth_loop (pre ++ rest) px =
        ((auth_loop rest (last_px pre px)).1,
         (auth_loop rest (last_px pre px)).2.1,
         pre.map Prod.fst ++ (auth_loop rest (last_px pre px)).2.2)
  | [], rest, px, _ => rfl
  | (h, o) :: pre, rest, px, hpre => by
    have ho : o = AttemptOutcome.netError := hpre (h, o) (by simp)
    subst ho
    simp only [List.cons_append, auth_loop, last_px, List.map_cons, List.append_eq]
    rw [auth_loop_net_skip pre rest (some h) (fun p hp => hpre p (by simp [hp]))]

/-- C2: in the attempted order, a credential rejection at any position
stops `authenticate` immediately — the error is the credential error and
the attempted hosts are exactly the entries up to and including the
rejecting one — whereas a network-level failure at that position lets
the next candidate be attempted. -/
theorem authenticate_credential_short_circuit
    (pre post : List (HostInfo × AttemptOutcome)) (h : HostInfo)
    (hpre : ∀ p ∈ pre, p.2 = AttemptOutcome.netError) :
    ((authenticate (pre ++ (h, AttemptOutcome.authError) :: post)).1 =
        AuthResult.credRejected ∧
      (authenticate (pre ++ (h, AttemptOutcome.authError) :: post)).2.2 =
        pre.map Prod.fst ++ [h]) ∧
    (∀ (h2 : HostInfo) (o2 : AttemptOutcome) (post2 : List (HostInfo × AttemptOutcome)),
      h2 ∈ (authenticate (pre ++ (h, AttemptOutcome.netError) :: (h2, o2) :: post2)).2.2) := by
  constructor
  · rw [authenticate, auth_loop_net_skip pre _ none hpre]
    simp [auth_loop]
  · intro h2 o2 post2
    rw [authenticate, auth_loop_net_skip pre _ none hpre]
    simp only [auth_loop]
    cases o2 <;> simp [auth_loop]

theorem auth_loop_cases :
    ∀ (pool : List (HostInfo × AttemptOutcome)) (px : Option HostInfo),
      ((∀ p ∈ pool, p.2 = AttemptOutcome.netError) →
        (auth_loop pool px).1 = AuthResult.poolExhausted) ∧
      ((auth_loop pool px).1 = AuthResult.ok →
        ∃ hh, (auth_loop pool px).2.1 = some hh ∧ hh ∈ pool.map Prod.fst)
  | [], px => by
    constructor
    · intro _; rfl
    · intro hok; exact absurd hok (by simp [auth_loop])
  | (h, o) :: rest, px => by
    cases o with
    | success =>
      constructor
      · intro hall
        exact absurd (hall (h, .success) (by simp)) (by simp)
      · intro _
        exact ⟨h, rfl, by simp⟩
    | authError =>
      constructor
      · intro hall
        exact absurd (hall (h, .authError) (by simp)) (by simp)
      · intro hok
        exact absurd hok (by simp [auth_loop])
    | netError =>
      constructor
      · intro hall
        simp only [auth_loop]
        exact (auth_loop_cases rest (some h)).1
          (fun p hp => hall p (by simp [hp]))
      · intro hok
        simp only [auth_loop] at hok ⊢
        rcases (auth_loop_cases rest (some h)).2 hok with ⟨hh, h1, h2⟩
        exact ⟨hh, h1, by simp [h2]⟩

/-- C3: on a nonempty pool `authenticate` either succeeds with the
session handle bound to exactly one pool entry or fails; exhausting the
pool on network failures yields the pool-exhausted error, which is
distinct from the credential-rejection error. -/
theorem authenticate_pool_exhaustion
    (pool : List (HostInfo × AttemptOutcome)) (_hne : pool ≠ []) :
    ((∀ p ∈ pool, p.2 = AttemptOutcome.netError) →
      (authenticate pool).1 = AuthResult.poolExhausted) ∧
    ((authenticate pool).1 = AuthResult.ok →
      ∃ hh, (authenticate pool).2.1 = some hh ∧ hh ∈ pool.map Prod.fst) ∧
    (AuthResult.poolExhausted ≠ AuthResult.credRejected) ∧
    ((authenticate pool).1 = AuthResult.ok ∨
      (authenticate pool).1 = AuthResult.credRejected ∨
      (authenticate pool).1 = AuthResult.poolExhausted) := by
  refine ⟨(auth_loop_cases pool none).1, (auth_loop_cases pool none).2, by simp, ?_⟩
  cases (authenticate pool).1 <;> simp

/-- C10: the session handle is assigned for a candidate host before the
verification call, so a credential rejection leaves the handle bound to
the rejecting host (whatever it held before the run). -/
theorem authenticate_handle_not_atomic
    (pre post : List (HostInfo × AttemptOutcome)) (h : HostInfo)
    (hpre : ∀ p ∈ pre, p.2 = AttemptOutcome.netError) :
    (∀ px0 : Option HostInfo,
      (auth_loop (pre ++ (h, AttemptOutcome.authError) :: post) px0).2.1 = some h) ∧
    (authenticate (pre ++ (h, AttemptOutcome.authError) :: post)).1 =
      AuthResult.credRejected := by
  constructor
  · intro px0
    rw [auth_loop_net_skip pre _ px0 hpre]
    simp [auth_loop]
  · rw [authenticate, auth_loop_net_skip pre _ none hpre]
    simp [auth_loop]

end VDI

namespace VDI

theorem poll_job_no_completion :
    ∀ (n : Nat) (sample : Nat → PollSample),
      (∀ i, i < n → is_completion (sample i) = false) →
      poll_job sample n = (StartOutcome.timedOut, n)
  | 0, _, _ => rfl
  | n + 1, sample, hall => by
    have h0 : is_completion (sample 0) = false := hall 0 (by omega)
    cases hs : sample 0 with
    | completion s => rw [hs] at h0; simp [is_completion] at h0
    | queryFail =>
      simp only [poll_job, hs]
      rw [poll_job_no_completion n (fun i => sample (i + 1))
        (fun i hi => hall (i + 1) (by omega))]
    | noStatus =>
      simp only [poll_job, hs]
      rw [poll_job_no_completion n (fun i => sample (i + 1))
        (fun i hi => hall (i + 1) (by omega))]

theorem poll_job_first_completion :
    ∀ (j n : Nat) (sample : Nat → PollSample) (s : String), j < n →
      (∀ i, i < j → is_completion (sample i) = false) →
      sample j = PollSample.completion s →
      poll_job sample n = (if s = "OK" then StartOutcome.running else StartOutcome.failed, j + 1)
  | 0, 0, _, _, hj, _, _ => by omega
  | 0, n + 1, sample, s, _, _, hcomp => by
    simp only [poll_job, hcomp]
    by_cases hok : s = "OK" <;> simp [hok]
  | j + 1, 0, _, _, hj, _, _ => by omega
  | j + 1, n + 1, sample, s, hj, hfirst, hcomp => by
    have h0 : is_completion (sample 0) = false := hfirst 0 (by omega)
    cases hs : sample 0 with
    | completion t => rw [hs] at h0; simp [is_completion] at h0
    | queryFail =>
      simp only [poll_job, hs]
      rw [poll_job_first_completion j n (fun i => sample (i + 1)) s (by omega)
        (fun i hi => hfirst (i + 1) (by omega)) hcomp]
    | noStatus =>
      simp only [poll_job, hs]
      rw [poll_job_first_completion j n (fun i => sample (i + 1)) s (by omega)
        (fun i hi => hfirst (i + 1) (by omega)) hcomp]

/-- C4: with a start needed, a transient status-query failure consumes
one of the 30 samples without aborting (the outcome is whatever the
remaining 29 samples decide); exhausting the budget with no completion
observed times out (consuming all 30 samples); a completion with a
non-"OK" exit indicator fails; and the two error kinds are distinct. -/
theorem ensure_running_poll_outcomes (st : String)
    (sample sample2 : Nat → PollSample) (j : Nat) (s : String)
    (hst : st ≠ "running")
    (hnone : ∀ i, i < 30 → is_completion (sample i) = false)
    (hj : j < 30) (hfirst : ∀ i, i < j → is_completion (sample2 i) = false)
    (hcomp : sample2 j = PollSample.completion s) (hs : s ≠ "OK") :
    (ensure_running st sample).1 = StartOutcome.timedOut ∧
    (ensure_running st sample).2.2 = 30 ∧
    (ensure_running st sample2).1 = StartOutcome.failed ∧
    StartOutcome.failed ≠ StartOutcome.timedOut ∧
    (∀ sample3 : Nat → PollSample, sample3 0 = PollSample.queryFail →
      (ensure_running st sample3).1 = (poll_job (fun i => sample3 (i + 1)) 29).1 ∧
      (ensure_running st sample3).2.2 = (poll_job (fun i => sample3 (i + 1)) 29).2 + 1) := by
  have h1 := poll_job_no_completion 30 sample hnone
  have h2 := poll_job_first_completion j 30 sample2 s hj hfirst hcomp
  refine ⟨?_, ?_, ?_, by simp, ?_⟩
  · simp [ensure_running, hst, h1]
  · simp [ensure_running, hst, h1]
  · simp [ensure_running, hst, h2, hs]
  · intro sample3 h3
    constructor
    · simp only [ensure_running, if_pos hst]
      show (poll_job sample3 30).1 = _
      simp [poll_job, h3]
    · simp only [ensure_running, if_pos hst]
      show (poll_job sample3 30).2 = _
      simp [poll_job, h3]

/-- C8: when the run state of the guest is already "running" the whole start
block is skipped: no start command is issued, no status poll is made,
and the outcome is running. -/
theorem ensure_running_noop (st : String) (sample : Nat → PollSample)
    (hst : st = "running") :
    ensure_running st sample = (StartOutcome.running, false, 0) := by
  simp [ensure_running, hst]

end VDI

namespace VDI

/-- C5: a guest returned by `get_vms` always has its owning node in the
online-node set, stems from a non-template inventory record, and
matches a non-"both" type filter; with the filter "both" every
non-template guest on an online node is returned. -/
theorem get_vms_filters (gt : String) (nodes : List NodeRec)
    (vms : List VmRec) (out : List GuestRec) (g : GuestRec)
    (hok : get_vms gt (Except.ok nodes) (Except.ok vms) = Except.ok out)
    (hg : g ∈ out) :
    g.node ∈ online_nodes nodes ∧
    (∃ vm, vm ∈ vms ∧ project vm = g ∧ template_truthy vm.template = false) ∧
    (gt ≠ "both" → g.type = gt) ∧
    (gt = "both" → ∀ vm, vm ∈ vms → vm.node ∈ online_nodes nodes →
      template_truthy vm.template = false → project vm ∈ out) := by
  simp only [get_vms, Except.ok.injEq] at hok
  subst hok
  rw [mem_sort_by_name, List.mem_map] at hg
  rcases hg with ⟨vm, hvm, hproj⟩
  rw [List.mem_filter] at hvm
  rcases hvm with ⟨hmem, hvis⟩
  simp only [vm_visible, Bool.and_eq_true, Bool.or_eq_true, beq_iff_eq,
    Bool.not_eq_true'] at hvis
  refine ⟨?_, ⟨vm, hmem, hproj, hvis.1.2⟩, ?_, ?_⟩
  · rw [← hproj]
    exact List.elem_iff.mp hvis.1.1
  · intro hne
    rcases hvis.2 with h | h
    · exact absurd h hne
    · rw [← hproj]; exact h.symm
  · intro hboth vm2 hvm2 honl htempl
    rw [mem_sort_by_name, List.mem_map]
    refine ⟨vm2, ?_, rfl⟩
    rw [List.mem_filter]
    refine ⟨hvm2, ?_⟩
    simp only [vm_visible, Bool.and_eq_true, Bool.or_eq_true, beq_iff_eq,
      Bool.not_eq_true']
    exact ⟨⟨List.elem_iff.mpr honl, htempl⟩, Or.inl hboth⟩

/-- C6: whatever the input ordering of the guest inventory, the list
returned by `get_vms` is sorted ascending by display name in the
case-sensitive code-point order. -/
theorem get_vms_sorted (gt : String) (node_fetch : Except String (List NodeRec))
    (vm_fetch : Except String (List VmRec)) (out : List GuestRec)
    (hok : get_vms gt node_fetch vm_fetch = Except.ok out) :
    List.Pairwise (fun a b => str_le a.name b.name = true) out := by
  cases node_fetch with
  | error e => exact absurd hok (by simp [get_vms])
  | ok nodes =>
    cases vm_fetch with
    | error e => exact absurd hok (by simp [get_vms])
    | ok vms =>
      simp only [get_vms, Except.ok.injEq] at hok
      subst hok
      exact sort_by_name_sorted _

/-- C7: a failure of either inventory fetch surfaces as the single
"Failed to get VMs" error, and no guest list is returned. -/
theorem get_vms_all_or_nothing (gt : String)
    (node_fetch : Except String (List NodeRec))
    (vm_fetch : Except String (List VmRec))
    (h : (∃ e, node_fetch = Except.error e) ∨ (∃ e, vm_fetch = Except.error e)) :
    (∃ msg, get_vms gt node_fetch vm_fetch =
      Except.error ("Failed to get VMs: " ++ msg)) ∧
    (∀ out, get_vms gt node_fetch vm_fetch ≠ Except.ok out) := by
  cases node_fetch with
  | error e => exact ⟨⟨e, by simp [get_vms]⟩, fun out => by simp [get_vms]⟩
  | ok nodes =>
    rcases h with ⟨e, he⟩ | ⟨e, he⟩
    · exact absurd he (by simp)
    · subst he
      exact ⟨⟨e, by simp [get_vms]⟩, fun out => by simp [get_vms]⟩

end VDI

namespace VDI

theorem get_item_set_item (sec : List (String × String)) (k v q : String) :
    get_item (set_item sec k v) q =
      if lower_string q = lower_string k then some v else get_item sec q := by
  simp only [set_item, get_item]
  by_cases hany : sec.any (fun p => p.1 == lower_string k)
  · rw [if_pos hany, List.find?_map]
    have hcong : ((fun p : String × String => p.1 == lower_string q) ∘
        (fun p : String × String => if p.1 == lower_string k then (p.1, v) else p)) =
        (fun p : String × String => p.1 == lower_string q) := by
      funext p
      by_cases h : p.1 = lower_string k
      · simp [h]
      · simp [h]
    rw [hcong]
    by_cases heq : lower_string q = lower_string k
    · rw [if_pos heq]
      rw [List.any_eq_true] at hany
      rcases hany with ⟨p0, hp0, hp0k⟩
      cases hfind : sec.find? (fun p => p.1 == lower_string q) with
      | none =>
        rw [List.find?_eq_none] at hfind
        refine absurd ?_ (hfind p0 hp0)
        rw [heq]
        exact hp0k
      | some r =>
        have hr := List.find?_some hfind
        rw [beq_iff_eq] at hr
        have hr1 : r.1 = lower_string k := by rw [hr, heq]
        simp [hr1]
    · rw [if_neg heq]
      cases hfind : sec.find? (fun p => p.1 == lower_string q) with
      | none => simp
      | some r =>
        have hr := List.find?_some hfind
        rw [beq_iff_eq] at hr
        have hr1 : r.1 ≠ lower_string k := by rw [hr]; exact heq
        simp [hr1]
  · rw [if_neg hany, List.find?_append]
    rw [Bool.not_eq_true, List.any_eq_false] at hany
    by_cases heq : lower_string q = lower_string k
    · rw [if_pos heq]
      have hnone : sec.find? (fun p => p.1 == lower_string q) = none := by
        rw [List.find?_eq_none]
        intro p hp
        rw [heq]
        exact hany p hp
      rw [hnone]
      simp [List.find?_cons, heq.symm]
    · rw [if_neg heq]
      have hkq : lower_string k ≠ lower_string q := fun h => heq h.symm
      cases hfind : sec.find? (fun p => p.1 == lower_string q) with
      | none => simp [List.find?_cons, hkq, Option.or]
      | some r => simp [Option.or]

theorem get_item_ticket_step (conv sec : List (String × String))
    (kv : String × String) (q : String)
    (h : lower_string kv.1 ≠ lower_string q) :
    get_item (ticket_step conv sec kv) q = get_item sec q := by
  have hne : lower_string q ≠ lower_string kv.1 := fun h2 => h h2.symm
  simp only [ticket_step]
  split
  · cases conv_lookup conv (lower_string (kv.2.drop 7)) <;>
      simp [get_item_set_item, if_neg hne]
  · simp [get_item_set_item, if_neg hne]

theorem ticket_fold_preserve (conv : List (String × String)) :
    ∀ (ts : List (String × String)) (sec : List (String × String)) (q : String),
      (∀ p ∈ ts, lower_string p.1 ≠ lower_string q) →
      get_item (ts.foldl (ticket_step conv) sec) q = get_item sec q
  | [], _, _, _ => rfl
  | p :: ts, sec, q, h => by
    rw [List.foldl_cons,
      ticket_fold_preserve conv ts _ q (fun r hr => h r (by simp [hr])),
      get_item_ticket_step conv sec p q (h p (by simp))]

theorem addl_fold_preserve :
    ∀ (ps : List (String × String)) (sec : List (String × String)) (q : String),
      (∀ p ∈ ps, lower_string p.1 ≠ lower_string q) →
      get_item (ps.foldl (fun s kv => set_item s kv.1 kv.2) sec) q = get_item sec q
  | [], _, _, _ => rfl
  | p :: ps, sec, q, h => by
    rw [List.foldl_cons,
      addl_fold_preserve ps _ q (fun r hr => h r (by simp [hr])),
      get_item_set_item]
    exact if_neg (fun h2 => h p (by simp) h2.symm)

/-- C1 (amended): `build_config` forms the redirect-table key by
dropping the first 7 characters of the proxy value (the length of
"http://") and lower-casing the remainder; a key present in the table
rewrites the output to `http://` plus the replacement, a missing key
leaves the proxy value unchanged.  For the `http://`-prefixed example
ticket the mapped proxy and the port are emitted; an unmapped proxy
host is passed through unchanged. -/
theorem build_config_proxy_rewrite
    (pre post conv : List (String × String)) (v : String)
    (hpost : ∀ p ∈ post, lower_string p.1 ≠ "proxy") :
    (get_item (build_config (pre ++ ("proxy", v) :: post) conv none) "proxy" =
      some (match conv_lookup conv (lower_string (v.drop 7)) with
            | some repl => "http://" ++ repl
            | none => v)) ∧
    (get_item (build_config [("proxy", "http://px1.example.com:3128"), ("port", "5900")]
        [("px1.example.com:3128", "public.example.com:443")] none) "proxy" =
      some "http://public.example.com:443") ∧
    (get_item (build_config [("proxy", "http://px1.example.com:3128"), ("port", "5900")]
        [("px1.example.com:3128", "public.example.com:443")] none) "port" =
      some "5900") ∧
    (get_item (build_config [("proxy", "http://other.example.com:3128"), ("port", "5900")]
        [("px1.example.com:3128", "public.example.com:443")] none) "proxy" =
      some "http://other.example.com:3128") := by
  refine ⟨?_, by decide, by decide, by decide⟩
  have hlp : lower_string "proxy" = "proxy" := by decide
  simp only [build_config, List.foldl_append, List.foldl_cons]
  rw [ticket_fold_preserve conv post _ "proxy"
    (fun p hp => by rw [hlp]; exact hpost p hp)]
  simp only [ticket_step]
  rw [if_pos (by rfl)]
  cases conv_lookup conv (lower_string (v.drop 7)) with
  | none => simp [get_item_set_item]
  | some repl => simp [get_item_set_item]

/-- C1, as stated, is false on the code: for the example ticket the
spec itself gives, whose proxy value is scheme-prefixed with `https://`, the code
drops only 7 characters, the leftover "/" makes the lookup key miss the
redirect table, and the original proxy value is emitted instead of the
replacement. -/
theorem build_config_scheme_strip_counterexample :
    get_item (build_config [("proxy", "https://px1.example.com:3128"), ("port", "5900")]
        [("px1.example.com:3128", "public.example.com:443")] none) "proxy" =
      some "https://px1.example.com:3128" ∧
    get_item (build_config [("proxy", "https://px1.example.com:3128"), ("port", "5900")]
        [("px1.example.com:3128", "public.example.com:443")] none) "proxy" ≠
      some "http://public.example.com:443" := by
  constructor
  · decide
  · decide

/-- C9: the operator-configured extra parameters are overlaid after all
ticket fields and each one overwrites any same-named option already
emitted; in particular extra `("title", "X")` after ticket field
`title=Y` yields `title=X`. -/
theorem build_config_extra_params_win
    (ticket conv epre epost : List (String × String)) (k v : String)
    (hpost : ∀ p ∈ epost, lower_string p.1 ≠ lower_string k) :
    (get_item (build_config ticket conv (some (epre ++ (k, v) :: epost))) k =
      some v) ∧
    (get_item (build_config [("title", "Y"), ("port", "5900")] []
        (some [("title", "X")])) "title" = some "X") := by
  refine ⟨?_, by decide⟩
  simp only [build_config, List.foldl_append, List.foldl_cons]
  rw [addl_fold_preserve epost _ k hpost, get_item_set_item]
  exact if_pos rfl

end VDI

namespace VDI

/-- Witness for C1 at a concrete `http://`-prefixed ticket. -/
theorem build_config_proxy_rewrite_witness :
    get_item (build_config ([] ++ ("proxy", "http://px1.example.com:3128") :: [("port", "5900")])
        [("px1.example.com:3128", "public.example.com:443")] none) "proxy" =
      some (match conv_lookup [("px1.example.com:3128", "public.example.com:443")]
              (lower_string ("http://px1.example.com:3128".drop 7)) with
            | some repl => "http://" ++ repl
            | none => "http://px1.example.com:3128") :=
  (build_config_proxy_rewrite [] [("port", "5900")]
    [("px1.example.com:3128", "public.example.com:443")] "http://px1.example.com:3128"
    (by decide)).1

/-- Witness for C2 at a two-entry pool. -/
theorem authenticate_credential_short_circuit_witness :
    (authenticate [(⟨"h1", 8006⟩, AttemptOutcome.netError),
        (⟨"h2", 8006⟩, AttemptOutcome.authError)]).1 = AuthResult.credRejected ∧
    (authenticate [(⟨"h1", 8006⟩, AttemptOutcome.netError),
        (⟨"h2", 8006⟩, AttemptOutcome.authError)]).2.2 = [⟨"h1", 8006⟩, ⟨"h2", 8006⟩] :=
  (authenticate_credential_short_circuit [(⟨"h1", 8006⟩, AttemptOutcome.netError)] []
    ⟨"h2", 8006⟩ (by decide)).1

/-- Witness for C3 at a pool whose two entries are both unreachable. -/
theorem authenticate_pool_exhaustion_witness :
    (authenticate [(⟨"h1", 8006⟩, AttemptOutcome.netError),
        (⟨"h2", 8006⟩, AttemptOutcome.netError)]).1 = AuthResult.poolExhausted :=
  (authenticate_pool_exhaustion [(⟨"h1", 8006⟩, AttemptOutcome.netError),
    (⟨"h2", 8006⟩, AttemptOutcome.netError)] (by decide)).1 (by decide)

/-- Witness for C10: after a rejection on the second host the handle is
bound to that host. -/
theorem authenticate_handle_not_atomic_witness :
    (auth_loop ([(⟨"h1", 8006⟩, AttemptOutcome.netError)] ++
        (⟨"h2", 8006⟩, AttemptOutcome.authError) :: []) none).2.1 =
      some ⟨"h2", 8006⟩ :=
  (authenticate_handle_not_atomic [(⟨"h1", 8006⟩, AttemptOutcome.netError)] []
    ⟨"h2", 8006⟩ (by decide)).1 none

/-- Witness for C4: an all-transient sample stream times out and a
non-"OK" completion fails. -/
theorem ensure_running_poll_outcomes_witness :
    (ensure_running "stopped" (fun _ => PollSample.queryFail)).1 =
      StartOutcome.timedOut ∧
    (ensure_running "stopped"
        (fun i => if i = 0 then PollSample.completion "job errors" else
          PollSample.queryFail)).1 = StartOutcome.failed :=
  have h := ensure_running_poll_outcomes "stopped" (fun _ => PollSample.queryFail)
    (fun i => if i = 0 then PollSample.completion "job errors" else PollSample.queryFail)
    0 "job errors" (by decide) (fun _ _ => rfl) (by omega)
    (fun i hi => absurd hi (Nat.not_lt_zero i)) rfl (by decide)
  ⟨h.1, h.2.2.1⟩

/-- Witness for C8 at a guest already running. -/
theorem ensure_running_noop_witness :
    ensure_running "running" (fun _ => PollSample.queryFail) =
      (StartOutcome.running, false, 0) :=
  ensure_running_noop "running" (fun _ => PollSample.queryFail) rfl

/-- Witness for C5 at a one-node, one-guest inventory. -/
theorem get_vms_filters_witness :
    (⟨100, "beta", "n1", "running", "qemu", none⟩ : GuestRec).node ∈
      online_nodes [⟨"n1", "online"⟩] ∧
    (∃ vm, vm ∈ [(⟨100, "beta", "n1", "running", "qemu", none, none⟩ : VmRec)] ∧
      project vm = ⟨100, "beta", "n1", "running", "qemu", none⟩ ∧
      template_truthy vm.template = false) ∧
    ("qemu" ≠ "both" → (⟨100, "beta", "n1", "running", "qemu", none⟩ : GuestRec).type = "qemu") ∧
    ("qemu" = "both" → ∀ vm, vm ∈ [(⟨100, "beta", "n1", "running", "qemu", none, none⟩ : VmRec)] →
      vm.node ∈ online_nodes [⟨"n1", "online"⟩] → template_truthy vm.template = false →
      project vm ∈ [(⟨100, "beta", "n1", "running", "qemu", none⟩ : GuestRec)]) :=
  get_vms_filters "qemu" [⟨"n1", "online"⟩]
    [⟨100, "beta", "n1", "running", "qemu", none, none⟩]
    [⟨100, "beta", "n1", "running", "qemu", none⟩]
    ⟨100, "beta", "n1", "running", "qemu", none⟩ rfl (by decide)

/-- Witness for C6 at a reverse-sorted, duplicate-name inventory. -/
theorem get_vms_sorted_witness :
    List.Pairwise (fun a b : GuestRec => str_le a.name b.name = true)
      [⟨2, "a", "n1", "running", "qemu", none⟩, ⟨3, "a", "n1", "stopped", "qemu", none⟩,
        ⟨1, "b", "n1", "running", "qemu", none⟩] :=
  get_vms_sorted "both" (Except.ok [⟨"n1", "online"⟩])
    (Except.ok [⟨1, "b", "n1", "running", "qemu", none, none⟩,
      ⟨2, "a", "n1", "running", "qemu", none, none⟩,
      ⟨3, "a", "n1", "stopped", "qemu", none, none⟩])
    [⟨2, "a", "n1", "running", "qemu", none⟩, ⟨3, "a", "n1", "stopped", "qemu", none⟩,
      ⟨1, "b", "n1", "running", "qemu", none⟩] rfl

/-- Witness for C7 at a failing node fetch. -/
theorem get_vms_all_or_nothing_witness :
    (∃ msg, get_vms "both" (Except.error "connection reset") (Except.ok []) =
      Except.error ("Failed to get VMs: " ++ msg)) ∧
    (∀ out, get_vms "both" (Except.error "connection reset") (Except.ok []) ≠
      Except.ok out) :=
  get_vms_all_or_nothing "both" (Except.error "connection reset") (Except.ok [])
    (Or.inl ⟨"connection reset", rfl⟩)

/-- Witness for C9 at a concrete title override. -/
theorem build_config_extra_params_win_witness :
    get_item (build_config [("title", "Y"), ("port", "5900")] []
      (some ([] ++ ("title", "X") :: []))) "title" = some "X" :=
  (build_config_extra_params_win [("title", "Y"), ("port", "5900")] [] [] []
    "title" "X" (by simp)).1

end VDI
